import Mathlib

/-!
Shallow embedding of the Pertelian X2040 LCD driver (Go package `pertelian`).

The driver talks to a USB bulk output endpoint one byte at a time.  We model
the endpoint as a function from a global single-byte-write counter to the
`(count, error)` pair that write returns, and every driver operation as a pure
function that also produces the ordered trace of observable transport events
(latch delays and attempted single-byte writes).  Bytes are `Nat` values with
`% 256` applied exactly where the Go code does `uint8` arithmetic.
-/

namespace Pertelian

/-- Opcode constants from the source. -/
def x2040Command : Nat := 0xfe
def x2040Clear : Nat := 0x1
def x2040LightOff : Nat := 0x2
def x2040LightOn : Nat := 0x3
def x2040Entry : Nat := 0x6
def x2040Off : Nat := 0x8
def x2040On : Nat := 0xc
def x2040Init : Nat := 0x38

/-- `offsets` holds the character offsets for each line in the display. -/
def offsets (line : Nat) : Nat := [0x80, 0x80 + 0x40, 0x80 + 0x14, 0x80 + 0x54].getD line 0

/-- An observable transport event: a latch delay (the `time.Sleep(1µs)` call)
or an attempted single-byte endpoint write of a byte value. -/
inductive Ev where
  | sleep : Ev
  | tx : Nat → Ev
deriving DecidableEq, Repr

/-- The external USB endpoint: the `k`-th single-byte `ep.Write` call (counted
globally) returns a byte count and an optional transport error code. -/
def Endpoint : Type := Nat → Nat × Option Nat

/-- An endpoint on which every single-byte write succeeds, reporting count 1. -/
def epOK : Endpoint := fun _ => (1, none)

/-- An endpoint that reports no transport error but a byte count of 0 on every
single-byte write. -/
def epZero : Endpoint := fun _ => (0, none)

/-- An endpoint whose 5th single-byte write (global index 4) fails with
transport error code 7; all other writes succeed with count 1. -/
def epFail3 : Endpoint := fun k => if k = 4 then (1, some 7) else (1, none)

/-- The event trace of one successful instruction write: latch delay, prefix
byte, latch delay, opcode byte. -/
def instTrace (a : Nat) : List Ev := [Ev.sleep, Ev.tx x2040Command, Ev.sleep, Ev.tx a]

/-- Errors a driver operation can return. -/
inductive DriverErr where
  | transport : Nat → DriverErr
  | unknownWrite : DriverErr
  | outOfRange : DriverErr
  | invalidCharacterPosition : DriverErr
deriving DecidableEq, Repr

/-- Result of `Write`: total reported byte count, the error (if any), the
endpoint write counter afterwards, and the event trace. -/
structure WriteRes where
  written : Nat
  err : Option Nat
  next : Nat
  trace : List Ev
deriving DecidableEq, Repr

/-- Result of a driver operation: the error (if any), the endpoint write
counter afterwards, and the event trace. -/
structure OpRes where
  err : Option DriverErr
  next : Nat
  trace : List Ev
deriving DecidableEq, Repr

/-- The loop body of `Write`: `i` is the index within the current call's data
slice, `k` the global endpoint write counter.  For `i <= 2` the code sleeps
one microsecond before the single-byte write; it accumulates the reported
counts and stops at the first transport error. -/
def writeGo (ep : Endpoint) : List Nat → Nat → Nat → WriteRes
  | [], _, k => ⟨0, none, k, []⟩
  | b :: rest, i, k =>
    let pre : List Ev := if i ≤ 2 then [Ev.sleep] else []
    match (ep k).2 with
    | some e => ⟨(ep k).1, some e, k + 1, pre ++ [Ev.tx b]⟩
    | none =>
      let r := writeGo ep rest (i + 1) (k + 1)
      ⟨(ep k).1 + r.written, r.err, r.next, pre ++ Ev.tx b :: r.trace⟩

/-- `Write` sends `data` one single-byte transmission per byte, pausing before
each of the first three bytes. -/
def Write (ep : Endpoint) (k : Nat) (data : List Nat) : WriteRes :=
  writeGo ep data 0 k

/-- `inst` sends a command prefix and then the given byte as an instruction,
returning `unknownWrite` when the summed byte count is not 2. -/
def inst (ep : Endpoint) (k : Nat) (action : Nat) : OpRes :=
  let r := Write ep k [x2040Command, action]
  match r.err with
  | some e => ⟨some (DriverErr.transport e), r.next, r.trace⟩
  | none =>
    if r.written ≠ 2 then ⟨some DriverErr.unknownWrite, r.next, r.trace⟩
    else ⟨none, r.next, r.trace⟩

/-- `do` takes a list of actions, sending them to `inst` one at a time and
stopping at the first error.  (`do` is a Lean keyword, hence `doOps`.) -/
def doOps (ep : Endpoint) : Nat → List Nat → OpRes
  | k, [] => ⟨none, k, []⟩
  | k, a :: rest =>
    let r := inst ep k a
    match r.err with
    | some e => ⟨some e, r.next, r.trace⟩
    | none =>
      let r2 := doOps ep r.next rest
      ⟨r2.err, r2.next, r.trace ++ r2.trace⟩

/-- `On` turns on the display, initializes it, clears it and turns the light on. -/
def On (ep : Endpoint) (k : Nat) : OpRes :=
  doOps ep k [x2040On, x2040Init, x2040Clear, x2040LightOn]

/-- `Off` turns off the light, and then the display. -/
def Off (ep : Endpoint) (k : Nat) : OpRes :=
  doOps ep k [x2040LightOff, x2040Off]

/-- `Clear` removes all data visible on the display. -/
def Clear (ep : Endpoint) (k : Nat) : OpRes :=
  inst ep k x2040Clear

/-- `PrintAt` sends a string entry to the given line and character.  `line` and
`char` are `uint8` in the source, so the column bound is checked with wrapping
`uint8` addition, and the address byte is computed mod 256.  The byte count
reported by `Write` is discarded (`_, err :=` in the source). -/
def PrintAt (ep : Endpoint) (k : Nat) (line char : Nat) (text : List Nat) : OpRes :=
  if 3 < line then ⟨some DriverErr.outOfRange, k, []⟩
  else if 20 < text.length then ⟨some DriverErr.outOfRange, k, []⟩
  else if 20 < (char + text.length) % 256 then ⟨some DriverErr.outOfRange, k, []⟩
  else
    let offset := (offsets line + char) % 256
    let r := Write ep k (x2040Command :: offset :: text)
    ⟨r.err.map DriverErr.transport, r.next, r.trace⟩

/-- `Centered` attempts to send the given string so it is centered on the
given line. -/
def Centered (ep : Endpoint) (k : Nat) (line : Nat) (text : List Nat) : OpRes :=
  if 20 < text.length then ⟨some DriverErr.outOfRange, k, []⟩
  else PrintAt ep k line ((20 - text.length) / 2) text

/-- `Print` sends a string entry to wherever the cursor happens to be: prefix
byte, entry-mode opcode, then the raw text, discarding the byte count that
`Write` reports (`_, err :=` in the source). -/
def Print (ep : Endpoint) (k : Nat) (text : List Nat) : OpRes :=
  let r := Write ep k (x2040Command :: x2040Entry :: text)
  ⟨r.err.map DriverErr.transport, r.next, r.trace⟩

/-- `Blank` overwrites the given line with 20 spaces by delegating to
`PrintAt` after its own line check. -/
def Blank (ep : Endpoint) (k : Nat) (line : Nat) : OpRes :=
  if 3 < line then ⟨some DriverErr.outOfRange, k, []⟩
  else PrintAt ep k line 0 (List.replicate 20 32)

/-- `Light` sets the display light to the requested state via one instruction
write. -/
def Light (ep : Endpoint) (k : Nat) (state : Bool) : OpRes :=
  if state then inst ep k x2040LightOn else inst ep k x2040LightOff

/-- `SetCharacter` stores a custom character (its 8-byte `Lines` array,
modelled as the byte list `char`) at slot address `position * 8 + 72`,
computed in `uint8` arithmetic; the byte count reported by `Write` is
discarded (`_, err :=` in the source). -/
def SetCharacter (ep : Endpoint) (k : Nat) (position : Nat) (char : List Nat) : OpRes :=
  if 6 < position then ⟨some DriverErr.invalidCharacterPosition, k, []⟩
  else
    let addr := (position * 8 + 72) % 256
    let r := Write ep k (x2040Command :: addr :: char)
    ⟨r.err.map DriverErr.transport, r.next, r.trace⟩

/-- Writing a value into a Go slice at an index: out-of-range indices panic,
modelled as `none`. -/
def setAt : List Nat → Nat → Nat → Option (List Nat)
  | [], _, _ => none
  | _ :: rest, 0, v => some (v :: rest)
  | b :: rest, i + 1, v => (setAt rest i v).map (b :: ·)

/-- The loop of `GetCharacters`: writes `slots[i] + 1` (as `uint8`) into the
output buffer at index `i`, for `i` ranging over all of `slots`. -/
def getCharsLoop : List Nat → Nat → List Nat → Option (List Nat)
  | [], _, buf => some buf
  | s :: rest, i, buf =>
    match setAt buf i ((s + 1) % 256) with
    | none => none
    | some buf2 => getCharsLoop rest (i + 1) buf2

/-- `GetCharacters` returns a string built from character slot references: it
allocates a buffer of `min (len slots) 20` bytes but fills indices
`0 .. len slots - 1`.  A `none` result is the out-of-range panic. -/
def GetCharacters (slots : List Nat) : Option (List Nat) :=
  if slots.length = 0 then some []
  else getCharsLoop slots 0 (List.replicate (min slots.length 20) 0)

/-- Shape errors of `NewX2040Char`. -/
inductive ShapeErr where
  | want8Lines : ShapeErr
  | width5 : ShapeErr
deriving DecidableEq, Repr

/-- One row of a glyph packed into a byte: bit `4 - j` is set when the byte at
column `j` is not a space (byte 32). -/
def encodeRow (line : List Nat) : Nat :=
  (List.range 5).foldl
    (fun final j => if line.getD j 32 ≠ 32 then final ||| (1 <<< (4 - j)) else final) 0

/-- The row loop of `NewX2040Char`: checks each row's length and stores the
packed byte in `Lines[i]`; on a bad row it returns the partially filled
character together with the width error. -/
def fillRows : List (List Nat) → List Nat → Nat → List Nat × Option ShapeErr
  | [], buf, _ => (buf, none)
  | line :: rest, buf, i =>
    if line.length ≠ 5 then (buf, some ShapeErr.width5)
    else fillRows rest (buf.set i (encodeRow line)) (i + 1)

/-- `NewX2040Char` builds a custom character from 8 strings of 5 bytes each;
rows are modelled as byte lists.  Returns the (possibly zero/partial) 8-byte
`Lines` array together with the shape error, exactly as the Go function
returns `(char, err)`. -/
def NewX2040Char (lines : List (List Nat)) : List Nat × Option ShapeErr :=
  if lines.length ≠ 8 then (List.replicate 8 0, some ShapeErr.want8Lines)
  else fillRows lines (List.replicate 8 0) 0

end Pertelian

namespace Pertelian

/-! ### Helper lemmas about the glyph encoder -/

lemma exists_len5 (row : List Nat) (h : row.length = 5) :
    ∃ a b c d e, row = [a, b, c, d, e] := by
  rcases row with _ | ⟨a, _ | ⟨b, _ | ⟨c, _ | ⟨d, _ | ⟨e, _ | ⟨f, t⟩⟩⟩⟩⟩⟩
  all_goals simp at h
  exact ⟨a, b, c, d, e, rfl⟩

lemma exists_len8 (lines : List (List Nat)) (h : lines.length = 8) :
    ∃ a b c d e f g k, lines = [a, b, c, d, e, f, g, k] := by
  rcases lines with _ | ⟨a, _ | ⟨b, _ | ⟨c, _ | ⟨d, _ | ⟨e, _ | ⟨f, _ | ⟨g, _ | ⟨k, _ | ⟨m, t⟩⟩⟩⟩⟩⟩⟩⟩⟩
  all_goals simp at h
  exact ⟨a, b, c, d, e, f, g, k, rfl⟩

lemma encodeRow_eq (x0 x1 x2 x3 x4 : Nat) :
    encodeRow [x0, x1, x2, x3, x4] =
      (if x0 ≠ 32 then 16 else 0) + (if x1 ≠ 32 then 8 else 0) + (if x2 ≠ 32 then 4 else 0) +
      (if x3 ≠ 32 then 2 else 0) + (if x4 ≠ 32 then 1 else 0) := by
  by_cases h0 : x0 = 32 <;> by_cases h1 : x1 = 32 <;> by_cases h2 : x2 = 32 <;>
    by_cases h3 : x3 = 32 <;> by_cases h4 : x4 = 32 <;>
    simp [encodeRow, List.range_succ, h0, h1, h2, h3, h4]

lemma encodeRow_testBit (x0 x1 x2 x3 x4 c : Nat) (hc : c < 5) :
    (Nat.testBit (encodeRow [x0, x1, x2, x3, x4]) (4 - c) = true ↔
      [x0, x1, x2, x3, x4].getD c 32 ≠ 32) := by
  rw [encodeRow_eq]
  interval_cases c <;>
    by_cases h0 : x0 = 32 <;> by_cases h1 : x1 = 32 <;> by_cases h2 : x2 = 32 <;>
    by_cases h3 : x3 = 32 <;> by_cases h4 : x4 = 32 <;>
    simp [h0, h1, h2, h3, h4] <;> decide

lemma encodeRow_testBit_len (row : List Nat) (h : row.length = 5) (c : Nat) (hc : c < 5) :
    (Nat.testBit (encodeRow row) (4 - c) = true ↔ row.getD c 32 ≠ 32) := by
  obtain ⟨a, b, d, e, f, rfl⟩ := exists_len5 row h
  exact encodeRow_testBit a b d e f c hc

lemma newChar_valid (r0 r1 r2 r3 r4 r5 r6 r7 : List Nat)
    (h0 : r0.length = 5) (h1 : r1.length = 5) (h2 : r2.length = 5) (h3 : r3.length = 5)
    (h4 : r4.length = 5) (h5 : r5.length = 5) (h6 : r6.length = 5) (h7 : r7.length = 5) :
    NewX2040Char [r0, r1, r2, r3, r4, r5, r6, r7] =
      ([encodeRow r0, encodeRow r1, encodeRow r2, encodeRow r3,
        encodeRow r4, encodeRow r5, encodeRow r6, encodeRow r7], none) := by
  simp [NewX2040Char, fillRows, h0, h1, h2, h3, h4, h5, h6, h7,
    List.replicate, List.set]

lemma fillRows_snd (rows : List (List Nat)) (buf : List Nat) (i : Nat) :
    (fillRows rows buf i).2 =
      if ∀ row ∈ rows, row.length = 5 then none else some ShapeErr.width5 := by
  induction rows generalizing buf i with
  | nil => simp [fillRows]
  | cons r rest ih =>
    by_cases h : r.length = 5
    · simp [fillRows, h, ih]
    · simp [fillRows, h]

end Pertelian

namespace Pertelian

/-! ### Claims about the glyph encoder -/

/-- Claim C7: for every valid 8-row by 5-column input, `NewX2040Char` succeeds,
produces exactly one byte per row (8 bytes total), and bit `4 - c` of byte `r`
is set exactly when the byte of row `r` at column `c` is not a space, so
column 0 maps to the most significant of the 5 used bits. -/
theorem NewX2040Char_bits (lines : List (List Nat)) (h8 : lines.length = 8)
    (hw : ∀ row ∈ lines, row.length = 5) :
    (NewX2040Char lines).2 = none ∧ (NewX2040Char lines).1.length = 8 ∧
      ∀ r < 8, ∀ c < 5,
        (Nat.testBit ((NewX2040Char lines).1.getD r 0) (4 - c) = true ↔
          (lines.getD r []).getD c 32 ≠ 32) := by
  obtain ⟨r0, r1, r2, r3, r4, r5, r6, r7, rfl⟩ := exists_len8 lines h8
  have l0 : r0.length = 5 := hw r0 (by simp)
  have l1 : r1.length = 5 := hw r1 (by simp)
  have l2 : r2.length = 5 := hw r2 (by simp)
  have l3 : r3.length = 5 := hw r3 (by simp)
  have l4 : r4.length = 5 := hw r4 (by simp)
  have l5 : r5.length = 5 := hw r5 (by simp)
  have l6 : r6.length = 5 := hw r6 (by simp)
  have l7 : r7.length = 5 := hw r7 (by simp)
  rw [newChar_valid r0 r1 r2 r3 r4 r5 r6 r7 l0 l1 l2 l3 l4 l5 l6 l7]
  refine ⟨rfl, rfl, ?_⟩
  intro r hr c hc
  interval_cases r
  · simpa using encodeRow_testBit_len r0 l0 c hc
  · simpa using encodeRow_testBit_len r1 l1 c hc
  · simpa using encodeRow_testBit_len r2 l2 c hc
  · simpa using encodeRow_testBit_len r3 l3 c hc
  · simpa using encodeRow_testBit_len r4 l4 c hc
  · simpa using encodeRow_testBit_len r5 l5 c hc
  · simpa using encodeRow_testBit_len r6 l6 c hc
  · simpa using encodeRow_testBit_len r7 l7 c hc

/-- Witness for C7: the all-centre-dot glyph (8 rows of byte string
`"  #  "`) encodes successfully and satisfies the bit property. -/
theorem NewX2040Char_bits_witness :
    (NewX2040Char (List.replicate 8 [32, 32, 35, 32, 32])).2 = none ∧
    (NewX2040Char (List.replicate 8 [32, 32, 35, 32, 32])).1.length = 8 ∧
      ∀ r < 8, ∀ c < 5,
        (Nat.testBit ((NewX2040Char (List.replicate 8 [32, 32, 35, 32, 32])).1.getD r 0)
            (4 - c) = true ↔
          ((List.replicate 8 [32, 32, 35, 32, 32]).getD r []).getD c 32 ≠ 32) :=
  NewX2040Char_bits (List.replicate 8 [32, 32, 35, 32, 32]) (by decide) (by decide)

/-- Claim C8: `NewX2040Char` is deterministic — the same valid 8×5 input
re-encodes to an identical result — and visually invertible: bit `i` of output
byte `r` reads back the space/non-space status of row `r`, column `4 - i`. -/
theorem NewX2040Char_invertible (lines : List (List Nat)) (h8 : lines.length = 8)
    (hw : ∀ row ∈ lines, row.length = 5) :
    NewX2040Char lines = NewX2040Char lines ∧
      ∀ r < 8, ∀ i < 5,
        (Nat.testBit ((NewX2040Char lines).1.getD r 0) i = true ↔
          (lines.getD r []).getD (4 - i) 32 ≠ 32) := by
  refine ⟨rfl, ?_⟩
  have key : ∀ row : List Nat, row.length = 5 → ∀ i, i < 5 →
      (Nat.testBit (encodeRow row) i = true ↔ row.getD (4 - i) 32 ≠ 32) := by
    intro row h i hi
    have h45 := encodeRow_testBit_len row h (4 - i) (by omega)
    rwa [Nat.sub_sub_self (by omega)] at h45
  obtain ⟨r0, r1, r2, r3, r4, r5, r6, r7, rfl⟩ := exists_len8 lines h8
  have l0 : r0.length = 5 := hw r0 (by simp)
  have l1 : r1.length = 5 := hw r1 (by simp)
  have l2 : r2.length = 5 := hw r2 (by simp)
  have l3 : r3.length = 5 := hw r3 (by simp)
  have l4 : r4.length = 5 := hw r4 (by simp)
  have l5 : r5.length = 5 := hw r5 (by simp)
  have l6 : r6.length = 5 := hw r6 (by simp)
  have l7 : r7.length = 5 := hw r7 (by simp)
  rw [newChar_valid r0 r1 r2 r3 r4 r5 r6 r7 l0 l1 l2 l3 l4 l5 l6 l7]
  intro r hr i hi
  interval_cases r
  · simpa using key r0 l0 i hi
  · simpa using key r1 l1 i hi
  · simpa using key r2 l2 i hi
  · simpa using key r3 l3 i hi
  · simpa using key r4 l4 i hi
  · simpa using key r5 l5 i hi
  · simpa using key r6 l6 i hi
  · simpa using key r7 l7 i hi

/-- Witness for C8: the corner glyph from `SetLineDrawingCharacters` (rows
`"     "`×3, `"   ##"`, `"  #  "`×4) decodes back to its dot pattern. -/
theorem NewX2040Char_invertible_witness :
    NewX2040Char [[32, 32, 32, 32, 32], [32, 32, 32, 32, 32], [32, 32, 32, 32, 32],
        [32, 32, 32, 35, 35], [32, 32, 35, 32, 32], [32, 32, 35, 32, 32],
        [32, 32, 35, 32, 32], [32, 32, 35, 32, 32]] =
      NewX2040Char [[32, 32, 32, 32, 32], [32, 32, 32, 32, 32], [32, 32, 32, 32, 32],
        [32, 32, 32, 35, 35], [32, 32, 35, 32, 32], [32, 32, 35, 32, 32],
        [32, 32, 35, 32, 32], [32, 32, 35, 32, 32]] ∧
    ∀ r < 8, ∀ i < 5,
      (Nat.testBit ((NewX2040Char [[32, 32, 32, 32, 32], [32, 32, 32, 32, 32],
          [32, 32, 32, 32, 32], [32, 32, 32, 35, 35], [32, 32, 35, 32, 32],
          [32, 32, 35, 32, 32], [32, 32, 35, 32, 32], [32, 32, 35, 32, 32]]).1.getD r 0)
          i = true ↔
        (([[32, 32, 32, 32, 32], [32, 32, 32, 32, 32], [32, 32, 32, 32, 32],
          [32, 32, 32, 35, 35], [32, 32, 35, 32, 32], [32, 32, 35, 32, 32],
          [32, 32, 35, 32, 32], [32, 32, 35, 32, 32]] : List (List Nat)).getD r []).getD
            (4 - i) 32 ≠ 32) :=
  NewX2040Char_invertible _ (by decide) (by decide)

/-- Claim C9: `NewX2040Char` fails with the want-8-lines shape error for every
input without exactly 8 rows, fails with the width-5 shape error when the row
count is right but some row is not exactly 5 bytes, and succeeds exactly on
well-shaped input — malformed input never yields a successful encode. -/
theorem NewX2040Char_shape (lines : List (List Nat)) :
    (lines.length ≠ 8 → NewX2040Char lines = (List.replicate 8 0, some ShapeErr.want8Lines))
    ∧ (lines.length = 8 → (∃ row ∈ lines, row.length ≠ 5) →
        (NewX2040Char lines).2 = some ShapeErr.width5)
    ∧ ((NewX2040Char lines).2 = none ↔
        lines.length = 8 ∧ ∀ row ∈ lines, row.length = 5) := by
  have main : (NewX2040Char lines).2 =
      if lines.length = 8 then
        (if ∀ row ∈ lines, row.length = 5 then none else some ShapeErr.width5)
      else some ShapeErr.want8Lines := by
    by_cases h : lines.length = 8
    · simp [NewX2040Char, h, fillRows_snd]
    · simp [NewX2040Char, h]
  refine ⟨?_, ?_, ?_⟩
  · intro hn
    simp [NewX2040Char, hn]
  · intro h8 hex
    rcases hex with ⟨row, hm, hl⟩
    rw [main, if_pos h8, if_neg (fun hall => hl (hall row hm))]
  · rw [main]
    split_ifs with h1 h2 <;> simp_all

/-- Witness for C9: the empty input (0 rows) fails with the want-8-lines
error, and an 8-row input whose second row is 2 bytes wide fails with the
width-5 error. -/
theorem NewX2040Char_shape_witness :
    NewX2040Char ([] : List (List Nat)) = (List.replicate 8 0, some ShapeErr.want8Lines) ∧
    (NewX2040Char [[35, 35, 35, 35, 35], [35, 35], [32, 32, 32, 32, 32], [32, 32, 32, 32, 32],
        [32, 32, 32, 32, 32], [32, 32, 32, 32, 32], [32, 32, 32, 32, 32],
        [32, 32, 32, 32, 32]]).2 = some ShapeErr.width5 :=
  ⟨(NewX2040Char_shape []).1 (by decide),
    (NewX2040Char_shape [[35, 35, 35, 35, 35], [35, 35], [32, 32, 32, 32, 32],
        [32, 32, 32, 32, 32], [32, 32, 32, 32, 32], [32, 32, 32, 32, 32],
        [32, 32, 32, 32, 32], [32, 32, 32, 32, 32]]).2.1 (by decide)
      ⟨[35, 35], by decide, by decide⟩⟩

end Pertelian

namespace Pertelian

/-! ### Helper lemmas about the transport layer -/

lemma writeGo_trace (ep : Endpoint) (data : List Nat) (i k : Nat)
    (h : ∀ j, j < data.length → (ep (k + j)).2 = none) :
    (writeGo ep data i k).trace =
      (data.enumFrom i).flatMap
        (fun p => (if p.1 ≤ 2 then [Ev.sleep] else []) ++ [Ev.tx p.2]) := by
  induction data generalizing i k with
  | nil => simp [writeGo]
  | cons b rest ih =>
    have hk : (ep k).2 = none := by simpa using h 0 (by simp)
    have hrest : ∀ j, j < rest.length → (ep (k + 1 + j)).2 = none := by
      intro j hj
      have hh := h (j + 1) (by simp; omega)
      rwa [show k + (j + 1) = k + 1 + j by omega] at hh
    simp [writeGo, hk, ih (i + 1) (k + 1) hrest]

lemma inst_ok (ep : Endpoint) (k a : Nat) (h0 : ep k = (1, none)) (h1 : ep (k + 1) = (1, none)) :
    inst ep k a = ⟨none, k + 2, [Ev.sleep, Ev.tx x2040Command, Ev.sleep, Ev.tx a]⟩ := by
  simp [inst, Write, writeGo, h0, h1]

lemma doOps_cons_err (ep : Endpoint) (k a : Nat) (rest : List Nat) (e : DriverErr)
    (h : (inst ep k a).err = some e) :
    doOps ep k (a :: rest) = ⟨some e, (inst ep k a).next, (inst ep k a).trace⟩ := by
  simp [doOps, h]

lemma doOps_cons_ok (ep : Endpoint) (k a n : Nat) (t : List Ev) (rest : List Nat)
    (h : inst ep k a = ⟨none, n, t⟩) :
    doOps ep k (a :: rest) =
      ⟨(doOps ep n rest).err, (doOps ep n rest).next, t ++ (doOps ep n rest).trace⟩ := by
  simp [doOps, h]

end Pertelian

namespace Pertelian

/-! ### Claims about the transport discipline and driver operations -/

/-- Counterexample for C2: in the trace of `Write` for a 4-byte payload on an
all-success endpoint, the event right after the write of the third byte
(index 5, so the event at index 6) is the write of the fourth byte, not a
delay: the third byte is preceded, not followed, by its latch delay. -/
theorem Write_delay_position_cex :
    (Write epOK 0 [1, 2, 3, 4]).trace =
      [Ev.sleep, Ev.tx 1, Ev.sleep, Ev.tx 2, Ev.sleep, Ev.tx 3, Ev.tx 4] ∧
    (Write epOK 0 [1, 2, 3, 4]).trace.getD 6 Ev.sleep ≠ Ev.sleep := by decide

/-- Claim C2 (amended): every byte that `Write` sends is its own single-byte
endpoint write, each of the FIRST THREE bytes is PRECEDED by a brief
(1 microsecond) delay, and every byte after the third is sent back-to-back
with no delay: the trace interleaves exactly one delay before the writes at
payload indices 0, 1 and 2 and nothing anywhere else. -/
theorem Write_single_byte_preceding_delays (ep : Endpoint) (k : Nat) (data : List Nat)
    (h : ∀ j, j < data.length → (ep (k + j)).2 = none) :
    (Write ep k data).trace =
      data.enum.flatMap (fun p => (if p.1 ≤ 2 then [Ev.sleep] else []) ++ [Ev.tx p.2]) :=
  writeGo_trace ep data 0 k h

/-- Witness for C2: the trace of a concrete 4-byte `Write`. -/
theorem Write_single_byte_preceding_delays_witness :
    (Write epOK 0 [1, 2, 3, 4]).trace =
      [1, 2, 3, 4].enum.flatMap
        (fun p => (if p.1 ≤ 2 then [Ev.sleep] else []) ++ [Ev.tx p.2]) :=
  Write_single_byte_preceding_delays epOK 0 [1, 2, 3, 4] (fun _ _ => rfl)

/-- Counterexample for C1: `PrintAt` at column 255 with a 1-byte text has
column + length = 256 > 20 under exact integer arithmetic, yet the call does
not fail — the `uint8` addition wraps to 0 — and bytes are emitted. -/
theorem PrintAt_exact_arith_cex :
    20 < 255 + ([120] : List Nat).length ∧
    (PrintAt epOK 0 0 255 [120]).err = none ∧
    (PrintAt epOK 0 0 255 [120]).trace ≠ [] := by decide

/-- Claim C1 (amended): `PrintAt` fails with the out-of-range error — before
any byte is emitted — exactly when line > 3, or the text length exceeds 20,
or the `uint8` sum `(column + length) mod 256` exceeds 20; in particular
`printAt 0 14 "123456"` (column + length = 20) is not rejected. -/
theorem PrintAt_range_uint8 (ep : Endpoint) (k line char : Nat) (text : List Nat)
    (hl : line < 256) (hc : char < 256) :
    (PrintAt ep k line char text = ⟨some DriverErr.outOfRange, k, []⟩ ↔
      (3 < line ∨ 20 < text.length ∨ 20 < (char + text.length) % 256))
    ∧ (PrintAt ep k 0 14 [49, 50, 51, 52, 53, 54]).err ≠ some DriverErr.outOfRange := by
  constructor
  · by_cases h1 : 3 < line
    · simp [PrintAt, h1]
    · by_cases h2 : 20 < text.length
      · simp [PrintAt, h1, h2]
      · by_cases h3 : 20 < (char + text.length) % 256
        · simp [PrintAt, h1, h2, h3]
        · simp only [PrintAt, if_neg h1, if_neg h2, if_neg h3]
          rcases hw : (Write ep k (x2040Command :: (offsets line + char) % 256 :: text)).err
            with _ | e <;> simp [hw, h1, h2, h3]
  · simp only [PrintAt]
    norm_num
    rcases hw :
        (Write ep k (x2040Command :: (offsets 0 + 14) % 256 :: [49, 50, 51, 52, 53, 54])).err
      with _ | e <;> simp [hw]

/-- Witness for C1 (amended): line 4 is rejected with no byte emitted. -/
theorem PrintAt_range_uint8_witness :
    PrintAt epOK 0 4 0 [] = ⟨some DriverErr.outOfRange, 0, []⟩ :=
  ((PrintAt_range_uint8 epOK 0 4 0 [] (by omega) (by omega)).1).mpr (Or.inl (by omega))

/-- Counterexample for C4: on an endpoint that reports byte count 0 and no
transport error, `PrintAt`'s 3-byte transmission reports 0 bytes written, yet
`PrintAt` returns no error at all — it discards the byte count instead of
returning the unknown-write error. -/
theorem PrintAt_ignores_count_cex :
    (Write epZero 0 [254, 128, 120]).written = 0 ∧
    (Write epZero 0 [254, 128, 120]).err = none ∧
    (PrintAt epZero 0 0 0 [120]).err = none := by decide

/-- Claim C4 (amended): only instruction writes check the byte count.
`inst` passes transport errors through unchanged and returns the
unknown-write error exactly when the summed reported count differs from 2;
`Clear` and `Light` are single `inst` calls, so they inherit the check.  The
operations that transmit text or glyph payloads through `Write` directly —
`Print`, `PrintAt` (and `Centered` and `Blank`, which delegate to `PrintAt`),
and `SetCharacter` — discard the reported byte count, can never return the
unknown-write error, and pass through only transport errors. -/
theorem inst_count_check (ep : Endpoint) (k a : Nat) :
    (∀ e, (Write ep k [x2040Command, a]).err = some e →
      (inst ep k a).err = some (DriverErr.transport e))
    ∧ ((Write ep k [x2040Command, a]).err = none →
        ((inst ep k a).err = some DriverErr.unknownWrite ↔
          (Write ep k [x2040Command, a]).written ≠ 2))
    ∧ (Clear ep k = inst ep k x2040Clear)
    ∧ (∀ st, Light ep k st = inst ep k (if st then x2040LightOn else x2040LightOff))
    ∧ (∀ line char text, (PrintAt ep k line char text).err ≠ some DriverErr.unknownWrite)
    ∧ (∀ text, (Print ep k text).err =
        ((Write ep k (x2040Command :: x2040Entry :: text)).err).map DriverErr.transport)
    ∧ (∀ text, (Print ep k text).err ≠ some DriverErr.unknownWrite)
    ∧ (∀ line text, (Centered ep k line text).err ≠ some DriverErr.unknownWrite)
    ∧ (∀ line, (Blank ep k line).err ≠ some DriverErr.unknownWrite)
    ∧ (∀ pos ch, (SetCharacter ep k pos ch).err ≠ some DriverErr.unknownWrite) := by
  have hP : ∀ line char text,
      (PrintAt ep k line char text).err ≠ some DriverErr.unknownWrite := by
    intro line char text
    simp only [PrintAt]
    split_ifs
    · simp
    · simp
    · simp
    · rcases hw : (Write ep k (x2040Command :: (offsets line + char) % 256 :: text)).err
        with _ | e <;> simp [hw]
  refine ⟨?_, ?_, rfl, ?_, hP, fun text => rfl, ?_, ?_, ?_, ?_⟩
  · intro e he
    simp [inst, he]
  · intro hn
    by_cases hw : (Write ep k [x2040Command, a]).written = 2 <;> simp [inst, hn, hw]
  · intro st
    cases st <;> rfl
  · intro text
    rcases hw : (Write ep k (x2040Command :: x2040Entry :: text)).err with _ | e <;>
      simp [Print, hw]
  · intro line text
    simp only [Centered]
    split_ifs
    · simp
    · exact hP line ((20 - text.length) / 2) text
  · intro line
    simp only [Blank]
    split_ifs
    · simp
    · exact hP line 0 (List.replicate 20 32)
  · intro pos ch
    simp only [SetCharacter]
    split_ifs
    · simp
    · rcases hw : (Write ep k (x2040Command :: (pos * 8 + 72) % 256 :: ch)).err
        with _ | e <;> simp [hw]

/-- Witness for C4 (amended): an instruction write on the count-0 endpoint
does return the unknown-write error, while `PrintAt` on the same endpoint
does not. -/
theorem inst_count_check_witness :
    (inst epZero 0 1).err = some DriverErr.unknownWrite ∧
    (PrintAt epZero 0 0 0 [120]).err ≠ some DriverErr.unknownWrite :=
  ⟨((inst_count_check epZero 0 1).2.1 (by decide)).mpr (by decide),
    (inst_count_check epZero 0 0).2.2.2.2.1 0 0 [120]⟩

/-- Claim C3: `On` issues exactly 4 instruction writes — each one a latch
delay, the prefix byte 0xFE, a latch delay, and one opcode byte — in the
fixed order ON (0x0C), INIT (0x38), CLEAR (0x01), LIGHT_ON (0x03); and if the
(m+1)-th instruction write fails after the first m succeeded, its error is
returned, the later instructions are never attempted, and the events of the
already-sent instructions remain in the trace (no rollback). -/
theorem On_four_instructions (ep : Endpoint) (k : Nat) :
    ((∀ j, j < 8 → ep (k + j) = (1, none)) →
      On ep k = ⟨none, k + 8,
        instTrace x2040On ++ instTrace x2040Init ++ instTrace x2040Clear ++
          instTrace x2040LightOn⟩)
    ∧ (∀ m, m < 4 → (∀ j, j < 2 * m → ep (k + j) = (1, none)) →
        ∀ e, (inst ep (k + 2 * m)
            ([x2040On, x2040Init, x2040Clear, x2040LightOn].getD m 0)).err = some e →
          On ep k = ⟨some e,
            (inst ep (k + 2 * m)
              ([x2040On, x2040Init, x2040Clear, x2040LightOn].getD m 0)).next,
            ([x2040On, x2040Init, x2040Clear, x2040LightOn].take m).flatMap instTrace ++
              (inst ep (k + 2 * m)
                ([x2040On, x2040Init, x2040Clear, x2040LightOn].getD m 0)).trace⟩) := by
  constructor
  · intro h
    have i0 : inst ep k x2040On = ⟨none, k + 2, instTrace x2040On⟩ :=
      inst_ok ep k _ (h 0 (by omega)) (h 1 (by omega))
    have i1 : inst ep (k + 2) x2040Init = ⟨none, k + 2 + 2, instTrace x2040Init⟩ :=
      inst_ok ep (k + 2) _ (h 2 (by omega))
        (by rw [show k + 2 + 1 = k + 3 by omega]; exact h 3 (by omega))
    have i2 : inst ep (k + 2 + 2) x2040Clear = ⟨none, k + 2 + 2 + 2, instTrace x2040Clear⟩ :=
      inst_ok ep (k + 2 + 2) _
        (by rw [show k + 2 + 2 = k + 4 by omega]; exact h 4 (by omega))
        (by rw [show k + 2 + 2 + 1 = k + 5 by omega]; exact h 5 (by omega))
    have i3 : inst ep (k + 2 + 2 + 2) x2040LightOn =
        ⟨none, k + 2 + 2 + 2 + 2, instTrace x2040LightOn⟩ :=
      inst_ok ep (k + 2 + 2 + 2) _
        (by rw [show k + 2 + 2 + 2 = k + 6 by omega]; exact h 6 (by omega))
        (by rw [show k + 2 + 2 + 2 + 1 = k + 7 by omega]; exact h 7 (by omega))
    rw [On, doOps_cons_ok _ _ _ _ _ _ i0, doOps_cons_ok _ _ _ _ _ _ i1,
      doOps_cons_ok _ _ _ _ _ _ i2, doOps_cons_ok _ _ _ _ _ _ i3]
    simp [doOps, List.append_assoc]
  · intro m hm hpre e he
    interval_cases m
    · have he0 : (inst ep k x2040On).err = some e := by simpa using he
      rw [On, doOps_cons_err ep k x2040On _ e he0]
      simp
    · have i0 : inst ep k x2040On = ⟨none, k + 2, instTrace x2040On⟩ :=
        inst_ok ep k _ (hpre 0 (by omega)) (hpre 1 (by omega))
      have he1 : (inst ep (k + 2) x2040Init).err = some e := by
        rw [show k + 2 = k + 2 * 1 by omega]
        simpa using he
      rw [On, doOps_cons_ok _ _ _ _ _ _ i0, doOps_cons_err ep (k + 2) x2040Init _ e he1]
      simp [show k + 2 * 1 = k + 2 by omega, instTrace]
    · have i0 : inst ep k x2040On = ⟨none, k + 2, instTrace x2040On⟩ :=
        inst_ok ep k _ (hpre 0 (by omega)) (hpre 1 (by omega))
      have i1 : inst ep (k + 2) x2040Init = ⟨none, k + 2 + 2, instTrace x2040Init⟩ :=
        inst_ok ep (k + 2) _ (hpre 2 (by omega))
          (by rw [show k + 2 + 1 = k + 3 by omega]; exact hpre 3 (by omega))
      have he2 : (inst ep (k + 2 + 2) x2040Clear).err = some e := by
        rw [show k + 2 + 2 = k + 2 * 2 by omega]
        simpa using he
      rw [On, doOps_cons_ok _ _ _ _ _ _ i0, doOps_cons_ok _ _ _ _ _ _ i1,
        doOps_cons_err ep (k + 2 + 2) x2040Clear _ e he2]
      simp [show k + 2 * 2 = k + 2 + 2 by omega, instTrace, List.append_assoc]
    · have i0 : inst ep k x2040On = ⟨none, k + 2, instTrace x2040On⟩ :=
        inst_ok ep k _ (hpre 0 (by omega)) (hpre 1 (by omega))
      have i1 : inst ep (k + 2) x2040Init = ⟨none, k + 2 + 2, instTrace x2040Init⟩ :=
        inst_ok ep (k + 2) _ (hpre 2 (by omega))
          (by rw [show k + 2 + 1 = k + 3 by omega]; exact hpre 3 (by omega))
      have i2 : inst ep (k + 2 + 2) x2040Clear = ⟨none, k + 2 + 2 + 2, instTrace x2040Clear⟩ :=
        inst_ok ep (k + 2 + 2) _
          (by rw [show k + 2 + 2 = k + 4 by omega]; exact hpre 4 (by omega))
          (by rw [show k + 2 + 2 + 1 = k + 5 by omega]; exact hpre 5 (by omega))
      have he3 : (inst ep (k + 2 + 2 + 2) x2040LightOn).err = some e := by
        rw [show k + 2 + 2 + 2 = k + 2 * 3 by omega]
        simpa using he
      rw [On, doOps_cons_ok _ _ _ _ _ _ i0, doOps_cons_ok _ _ _ _ _ _ i1,
        doOps_cons_ok _ _ _ _ _ _ i2,
        doOps_cons_err ep (k + 2 + 2 + 2) x2040LightOn _ e he3]
      simp [show k + 2 * 3 = k + 2 + 2 + 2 by omega, instTrace, List.append_assoc]

/-- Witness for C3: on the all-success endpoint `On` emits the full 16-event
trace of the 4 instructions, and on an endpoint whose 5th single-byte write
fails with transport error 7 (the prefix byte of the CLEAR instruction), `On`
returns that error with only the first two instructions and the failed prefix
byte in the trace. -/
theorem On_four_instructions_witness :
    On epOK 0 = ⟨none, 0 + 8,
      instTrace x2040On ++ instTrace x2040Init ++ instTrace x2040Clear ++
        instTrace x2040LightOn⟩ ∧
    On epFail3 0 = ⟨some (DriverErr.transport 7),
      (inst epFail3 (0 + 2 * 2) ([x2040On, x2040Init, x2040Clear, x2040LightOn].getD 2 0)).next,
      ([x2040On, x2040Init, x2040Clear, x2040LightOn].take 2).flatMap instTrace ++
        (inst epFail3 (0 + 2 * 2)
          ([x2040On, x2040Init, x2040Clear, x2040LightOn].getD 2 0)).trace⟩ :=
  ⟨(On_four_instructions epOK 0).1 (fun _ _ => rfl),
    (On_four_instructions epFail3 0).2 2 (by omega)
      (fun j hj => by
        have hj4 : j < 4 := by omega
        interval_cases j <;> rfl)
      (DriverErr.transport 7) (by decide)⟩

/-- Claim C5 (code bug): `GetCharacters` maps empty input to the empty string
and each slot `s` to byte `s + 1` — `[0, 1, 2]` yields `[1, 2, 3]` and 20
zero slots yield 20 bytes of value 1 — but for 21 slots, instead of capping
the output at 20 bytes, the loop writes index 20 of the 20-byte buffer and
panics (modelled as `none`). -/
theorem GetCharacters_slot_refs :
    GetCharacters [0, 1, 2] = some [1, 2, 3] ∧ GetCharacters [] = some [] ∧
    GetCharacters (List.replicate 20 0) = some (List.replicate 20 1) ∧
    GetCharacters (List.replicate 21 0) = none := by decide

/-- Claim C6 (code bug): with 20 slots every buffer write of `GetCharacters`
is in bounds, but with 21 slots the loop reaches index 20 of the 20-byte
buffer, an out-of-range access (modelled as `none`). -/
theorem GetCharacters_oob_panic :
    GetCharacters (List.replicate 20 3) = some (List.replicate 20 4) ∧
    GetCharacters (List.replicate 21 3) = none := by decide

/-- Claim C10: `Centered` fails with the out-of-range error for every text
longer than 20 bytes (emitting nothing), and otherwise delegates to `PrintAt`
on the given line at column `(20 - length) / 2`; lengths 20 and 19 give
column 0, length 18 gives column 1. -/
theorem Centered_delegates (ep : Endpoint) (k line : Nat) (text : List Nat) :
    (20 < text.length → Centered ep k line text = ⟨some DriverErr.outOfRange, k, []⟩)
    ∧ (text.length ≤ 20 →
        Centered ep k line text = PrintAt ep k line ((20 - text.length) / 2) text)
    ∧ (text.length = 20 → Centered ep k line text = PrintAt ep k line 0 text)
    ∧ (text.length = 19 → Centered ep k line text = PrintAt ep k line 0 text)
    ∧ (text.length = 18 → Centered ep k line text = PrintAt ep k line 1 text) := by
  refine ⟨?_, ?_, ?_, ?_, ?_⟩
  · intro h
    simp [Centered, h]
  · intro h
    simp [Centered, Nat.not_lt.mpr h]
  · intro h
    simp [Centered, h]
  · intro h
    simp [Centered, h]
  · intro h
    simp [Centered, h]

/-- Witness for C10: a 19-byte text is centered at column 0. -/
theorem Centered_delegates_witness :
    Centered epOK 0 1 (List.replicate 19 65) = PrintAt epOK 0 1 0 (List.replicate 19 65) :=
  (Centered_delegates epOK 0 1 (List.replicate 19 65)).2.2.2.1 (by decide)

end Pertelian
